import Mathlib

/-!
Shallow embedding of the persistence layer of `scrape_data_blueprint`
(`src/scraping/db.py`).  The SQLite tables become lists of row structures,
each `DbHandler` method becomes a pure function on the store, and the two
SQLAlchemy exceptions that can escape the merge operations
(`MultipleResultsFound` from `.one_or_none()` and the `ValueError` raised by
`type2str`) are modelled by returning the untouched store together with an
error message.  Python `int` is modelled by `Int`, Python `float` by `ℚ`
(every binary float is a dyadic rational; the values exercised here have
exact decimal representations), Python `str` by `String`, and the runtime
type of a stat value by the `PyVal` inductive, whose `bool` constructor
records that `bool` is a distinct runtime type from `int` in Python.
-/

/-- Runtime value of a statistic passed to `merge_player_stats`
(`Dict[str, Union[str, float, int]]`, plus `bool` which Python treats as its
own runtime type in `type(value) == int` checks). -/
inductive PyVal where
  | int (n : Int)
  | float (q : ℚ)
  | str (s : String)
  | bool (b : Bool)
deriving DecidableEq, Repr

/-- Row of table `nba_playoff_team` (db.py lines 27-34); the surrogate `id`
column carries no information and is omitted. -/
structure PlayoffRow where
  year : Int
  team_name : String
deriving DecidableEq, Repr

/-- Row of table `nba_team_player` (db.py lines 36-44). -/
structure TeamPlayerRow where
  player_name : String
  team_name : String
  year : Int
deriving DecidableEq, Repr

/-- Row of table `nba_player_salaries` (db.py lines 46-55). -/
structure SalaryRow where
  player_name : String
  year : Int
  salary : Int
  salary_currency : String
deriving DecidableEq, Repr

/-- Row of table `nba_player_stats` (db.py lines 57-68). -/
structure StatRow where
  player_name : String
  year : Int
  season : String
  stat_name : String
  stat_value : String
  stat_type : String
deriving DecidableEq, Repr

/-- The whole SQLite store: one list per table, in insertion order
(mirroring the append-only `INSERT` plus in-place `UPDATE` behaviour). -/
structure Db where
  teams : List String
  players : List String
  playoff_team : List PlayoffRow
  team_player : List TeamPlayerRow
  player_salaries : List SalaryRow
  player_stats : List StatRow
deriving DecidableEq, Repr

/-- The freshly created in-memory database. -/
def emptyDb : Db :=
  { teams := [], players := [], playoff_team := [], team_player := [],
    player_salaries := [], player_stats := [] }

/-- Equality of `Except` results is decidable componentwise. -/
instance {ε α : Type} [DecidableEq ε] [DecidableEq α] : DecidableEq (Except ε α) := fun x y =>
  match x, y with
  | .ok a, .ok b =>
    if h : a = b then isTrue (by rw [h]) else isFalse (fun hc => h (Except.ok.inj hc))
  | .ok _, .error _ => isFalse (fun hc => Except.noConfusion hc)
  | .error _, .ok _ => isFalse (fun hc => Except.noConfusion hc)
  | .error e, .error f =>
    if h : e = f then isTrue (by rw [h]) else isFalse (fun hc => h (Except.error.inj hc))

/-- Insert `a` into `l` before the first element `b` with `le a b = false`
refuted, i.e. keep skipping while `le a b` fails.  Building block of the
stable insertion sort below. -/
def insertLe {α : Type} (le : α → α → Bool) (a : α) : List α → List α
  | [] => [a]
  | b :: bs => if le a b then a :: b :: bs else b :: insertLe le a bs

/-- Stable insertion sort.  SQL `ORDER BY` leaves the order of ties
unspecified; a deterministic stable sort is one refinement of it, and it is
also the order `DataFrame.pivot` uses for its sorted labels. -/
def sortLe {α : Type} (le : α → α → Bool) : List α → List α
  | [] => []
  | a :: as => insertLe le a (sortLe le as)

/-- SQLAlchemy `.one_or_none()`: `none` for zero rows, the row for exactly
one, and a `MultipleResultsFound` error for more. -/
def oneOrNone {α : Type} (l : List α) : Except String (Option α) :=
  match l with
  | [] => .ok none
  | [a] => .ok (some a)
  | _ :: _ :: _ => .error "MultipleResultsFound"

/-- The digit character for `n < 10`. -/
def digitChar (n : Nat) : Char :=
  Char.ofNat (48 + n)

/-- Decimal digits of `n`, most significant first; `fuel` bounds the
recursion depth (any `fuel > log10 n` gives the exact digits). -/
def natDigitsAux : Nat → Nat → List Char
  | 0, _ => []
  | fuel + 1, n => if n < 10 then [digitChar n] else natDigitsAux fuel (n / 10) ++ [digitChar (n % 10)]

/-- Decimal representation of a natural number. -/
def natToString (n : Nat) : String :=
  String.mk (natDigitsAux (n + 1) n)

/-- Python `str()` of an `int`: decimal digits with a leading minus sign on
negatives. -/
def intToString : Int → String
  | .ofNat m => natToString m
  | .negSucc m => "-" ++ natToString (m + 1)

/-- The value of a decimal digit, if `c` is one. -/
def digitVal (c : Char) : Option Nat :=
  if 48 ≤ c.val && c.val ≤ 57 then some (c.toNat - 48) else none

/-- Read decimal digits, accumulating their value; fails on any non-digit. -/
def parseNatAux : List Char → Nat → Option Nat
  | [], acc => some acc
  | c :: cs, acc =>
    match digitVal c with
    | some d => parseNatAux cs (acc * 10 + d)
    | none => none

/-- A non-empty run of decimal digits as a natural number. -/
def parseDigits : List Char → Option Nat
  | [] => none
  | l => parseNatAux l 0

/-- A decimal integer with an optional leading minus sign. -/
def parseIntList : List Char → Option Int
  | '-' :: rest => (parseDigits rest).map (fun m => -(m : Int))
  | l => (parseDigits l).map (fun m => (m : Int))

/-- Split a character list on `.` (the behaviour of `"x.y".split('.')`). -/
def splitDotAux : List Char → List Char → List (List Char)
  | [], acc => [acc.reverse]
  | c :: cs, acc =>
    if c == '.' then acc.reverse :: splitDotAux cs [] else splitDotAux cs (c :: acc)

/-- Left-pad a digit string with zeros to length `k`. -/
def padZeros (s : String) (k : Nat) : String :=
  String.mk (List.replicate (k - s.length) '0') ++ s

/-- Drop trailing zero digits. -/
def stripTrailingZeros (s : String) : String :=
  String.mk ((s.toList.reverse.dropWhile (fun c => c == '0')).reverse)

/-- Python `str()` on a float, modelled for dyadic rationals (the exact
values of binary floats): the exact decimal expansion with at least one
fractional digit, e.g. `24.5 ↦ "24.5"` and `42.0 ↦ "42.0"`.  A denominator
dividing no power of ten cannot arise from a float and falls back to a
fraction form. -/
def floatToString (q : ℚ) : String :=
  let sign := if q.num < 0 then "-" else ""
  let n := q.num.natAbs
  let d := q.den
  match (List.range (d + 1)).find? (fun k => 10 ^ k % d == 0) with
  | some k =>
    let scaled := n * (10 ^ k / d)
    let ip := scaled / 10 ^ k
    let fracStr := stripTrailingZeros (padZeros (natToString (scaled % 10 ^ k)) k)
    sign ++ natToString ip ++ "." ++ (if fracStr.isEmpty then "0" else fracStr)
  | none => sign ++ natToString n ++ "/" ++ natToString d

/-- Python `str()` of a stat value (db.py line 218, `v = str(value)`). -/
def pyStr : PyVal → String
  | .int n => intToString n
  | .float q => floatToString q
  | .str s => s
  | .bool b => cond b "True" "False"

/-- `type2str` from `merge_player_stats` (db.py lines 197-205): exact
runtime-type dispatch; a `bool` is not of type `int` in Python, so it hits
the error branch. -/
def type2str : PyVal → Except String String
  | .int _ => .ok "Integer"
  | .float _ => .ok "Float"
  | .str _ => .ok "String"
  | .bool _ => .error "Unexpected type for statistic"

/-- `DbHandler.merge_team` (db.py lines 86-94). -/
def merge_team (db : Db) (team : String) : Db :=
  if db.teams.contains team then db
  else { db with teams := db.teams ++ [team] }

/-- `DbHandler.merge_playoff_team` (db.py lines 96-111). -/
def merge_playoff_team (db : Db) (team : String) (year : Int) : Db :=
  match db.playoff_team.find? (fun r => r.team_name == team && r.year == year) with
  | some _ => db
  | none => { db with playoff_team := db.playoff_team ++ [⟨year, team⟩] }

/-- `DbHandler.merge_player` (db.py lines 113-125). -/
def merge_player (db : Db) (player : String) : Db :=
  if db.players.contains player then db
  else { db with players := db.players ++ [player] }

/-- Unique-key predicate of `nba_team_player` (`unique(player_name, year)`,
constraint `uc_year_pname`). -/
def tpKey (player : String) (year : Int) (r : TeamPlayerRow) : Bool :=
  r.player_name == player && r.year == year

/-- `DbHandler.merge_team_player` (db.py lines 127-155): the select takes
the first row matching `(player, year)` (`.scalar()`), the update rewrites
`team_name` on every row matching `(player, year)`. -/
def merge_team_player (db : Db) (team player : String) (year : Int) : Db :=
  match db.team_player.find? (tpKey player year) with
  | none => { db with team_player := db.team_player ++ [⟨player, team, year⟩] }
  | some r =>
    if r.team_name == team then db
    else { db with team_player :=
        db.team_player.map (fun s =>
          if tpKey player year s then { s with team_name := team } else s) }

/-- Unique-key predicate of `nba_player_salaries` (`unique(player_name, year)`). -/
def salKey (player : String) (year : Int) (r : SalaryRow) : Bool :=
  r.player_name == player && r.year == year

/-- `DbHandler.merge_player_salary` (db.py lines 157-189); `.one_or_none()`
can raise, modelled as `(unchanged store, some message)`. -/
def merge_player_salary (db : Db) (player : String) (year salary : Int)
    (salary_currency : String) : Db × Option String :=
  match oneOrNone (db.player_salaries.filter (salKey player year)) with
  | .error e => (db, some e)
  | .ok none =>
    ({ db with player_salaries :=
        db.player_salaries ++ [⟨player, year, salary, salary_currency⟩] }, none)
  | .ok (some r) =>
    if r.salary == salary && r.salary_currency == salary_currency then (db, none)
    else ({ db with player_salaries :=
        db.player_salaries.map (fun s =>
          if salKey player year s then
            { s with salary := salary, salary_currency := salary_currency }
          else s) }, none)

/-- Key predicate of the per-stat select/update in `merge_player_stats`
(db.py lines 209-214 and 231-237): it filters on `(player, year, stat_name)`
and, notably, not on `season`. -/
def statKey (player : String) (year : Int) (stat : String) (r : StatRow) : Bool :=
  r.player_name == player && r.year == year && r.stat_name == stat

/-- The rows the per-stat select of `merge_player_stats` sees. -/
def slotRows (db : Db) (player : String) (year : Int) (stat : String) : List StatRow :=
  db.player_stats.filter (statKey player year stat)

/-- One iteration of the loop body of `merge_player_stats` (db.py lines
208-241): select (`one_or_none`, may raise), then `type2str` (may raise),
then insert with `season='postseason'` / update value and type / no-op. -/
def processStat (db : Db) (player : String) (year : Int) (stat : String)
    (value : PyVal) : Db × Option String :=
  match oneOrNone (slotRows db player year stat) with
  | .error e => (db, some e)
  | .ok r =>
    match type2str value with
    | .error e => (db, some e)
    | .ok t =>
      let v := pyStr value
      match r with
      | none =>
        ({ db with player_stats :=
            db.player_stats ++ [⟨player, year, "postseason", stat, v, t⟩] }, none)
      | some row =>
        if row.stat_value == v && row.stat_type == t then (db, none)
        else ({ db with player_stats :=
            db.player_stats.map (fun s =>
              if statKey player year stat s then
                { s with stat_value := v, stat_type := t }
              else s) }, none)

/-- `DbHandler.merge_player_stats` (db.py lines 191-241): processes the
mapping entry by entry in insertion order (Python dicts preserve it and
have distinct keys); the first raised error aborts the loop, keeping the
writes already made. -/
def merge_player_stats (db : Db) (player : String) (year : Int)
    (stats : List (String × PyVal)) : Db × Option String :=
  match stats with
  | [] => (db, none)
  | (stat, value) :: rest =>
    match processStat db player year stat value with
    | (db1, none) => merge_player_stats db1 player year rest
    | (db1, some e) => (db1, some e)

/-- `PlayerYearModel` as produced by `fetch_player_salary_playoffs`
(db.py lines 270-272): the `attributes` dict always holds exactly the keys
`salary` and `salary_currency`, modelled as two fields. -/
structure PlayerYearModel where
  year : Int
  team : String
  name : String
  salary : Int
  salary_currency : String
deriving DecidableEq, Repr

/-- The join of `fetch_player_salary_playoffs` (db.py lines 254-266) before
ordering: `playoff_team` joined to `team_player` on the team name alone,
joined to `player_salaries` on player name and the `team_player` year, all
filtered to `playoff_team.year == year`, in nested-loop order. -/
def salaryJoinRows (db : Db) (year : Int) : List PlayerYearModel :=
  db.playoff_team.flatMap (fun pt =>
    db.team_player.flatMap (fun tp =>
      db.player_salaries.filterMap (fun s =>
        if tp.team_name == pt.team_name && s.player_name == tp.player_name
            && s.year == tp.year && pt.year == year then
          some ⟨pt.year, pt.team_name, tp.player_name, s.salary, s.salary_currency⟩
        else none)))

/-- `DbHandler.fetch_player_salary_playoffs` (db.py lines 243-274): order by
salary descending (ties unspecified in SQL; a stable sort refines that) and
apply `LIMIT` (`none` meaning no limit; non-negative limits modelled). -/
def fetch_player_salary_playoffs (db : Db) (year : Int) (limit : Option Nat) :
    List PlayerYearModel :=
  let sorted := sortLe (fun a b => decide (b.salary ≤ a.salary)) (salaryJoinRows db year)
  match limit with
  | none => sorted
  | some n => sorted.take n

/-- Two's-complement wrap of `np.int32`. -/
def toInt32 (n : Int) : Int := (n + 2 ^ 31) % 2 ^ 32 - 2 ^ 31

/-- `np.int32(value_str)`: parse a decimal integer string and wrap to 32
bits.  (`numpy` raises on malformed strings; the stored strings this is
applied to were produced by `str()` on an `int`.) -/
def npInt32 (s : String) : Int := toInt32 ((parseIntList s.toList).getD 0)

/-- `np.float64(value_str)` for plain decimal literals, the form produced
by `str()` on a float: the digits around the decimal point read as an
integer over the matching power of ten.  (`numpy` raises on malformed
strings.) -/
def parseDecimal (s : String) : ℚ :=
  let chars := s.toList
  let neg : Bool := match chars with | '-' :: _ => true | _ => false
  let body := if neg then chars.drop 1 else chars
  let signed : Nat → Int := fun m => if neg then -(m : Int) else (m : Int)
  match splitDotAux body [] with
  | [ip] => mkRat (signed ((parseDigits ip).getD 0)) 1
  | [ip, fp] =>
    mkRat (signed (((parseDigits ip).getD 0) * 10 ^ fp.length + (parseDigits fp).getD 0))
      (10 ^ fp.length)
  | _ => mkRat 0 1

/-- `str2type` from `fetch_player_stats` (db.py lines 300-306). -/
def str2type (type_str value_str : String) : PyVal :=
  if type_str == "Integer" then .int (npInt32 value_str)
  else if type_str == "Float" then .float (parseDecimal value_str)
  else .str value_str

/-- The result of `fetch_player_stats`: either the unpivoted (and in the
code always empty) frame built at db.py line 285, or the pivoted frame of
line 312 with its sorted player index, sorted stat-name columns, and one
optional cell per (player, stat) pair (`NaN` for absent pairs). -/
inductive DataFrame where
  | raw (columns : List String) (rows : List (String × String × String × String))
  | pivoted (index : List String) (columns : List String)
      (cells : List (List (Option PyVal)))
deriving DecidableEq, Repr

/-- The column labels of a frame. -/
def dfColumns : DataFrame → List String
  | .raw cols _ => cols
  | .pivoted _ cols _ => cols

def isFloatVal : PyVal → Bool
  | .float _ => true
  | _ => false

def isStrVal : PyVal → Bool
  | .str _ => true
  | _ => false

/-- The numeric coercion pandas applies when building the converted
`STAT_VALUE` column (db.py line 310 and the comment at line 309): an
integer in a column that also holds floats becomes a float. -/
def coerceNumeric : PyVal → PyVal
  | .int n => .float (mkRat n 1)
  | v => v

/-- Lexicographic code-point order on strings (the order Python string
comparison and pandas label sorting use). -/
def charListLe : List Char → List Char → Bool
  | [], _ => true
  | _ :: _, [] => false
  | a :: as, b :: bs =>
    if a.val < b.val then true
    else if b.val < a.val then false
    else charListLe as bs

/-- Sorted distinct labels, as `DataFrame.pivot` produces for the index and
the columns. -/
def sortedDedup (l : List String) : List String :=
  sortLe (fun a b => charListLe a.toList b.toList) (l.eraseDups)

/-- `DbHandler.fetch_player_stats` (db.py lines 276-318).  Select the rows
for `(year, season)`; on zero rows return the prebuilt empty frame with its
four columns; otherwise reconstruct each value with `str2type`, let pandas
unify the column dtype (every integer becomes a float when the column mixes
`Integer` and `Float` results and holds no `String`), drop `STAT_TYPE` and
pivot (one row per player, one column per stat name; `pivot` would raise on
a duplicate (player, stat) pair, which the table's unique key rules out for
a fixed year and season). -/
def fetch_player_stats (db : Db) (year : Int) (season : String) : DataFrame :=
  let rows := db.player_stats.filter (fun r => r.year == year && r.season == season)
  match rows with
  | [] => .raw ["PLAYER", "STAT_NAME", "STAT_VALUE", "STAT_TYPE"] []
  | _ =>
    let conv := rows.map (fun r => (r.player_name, r.stat_name, str2type r.stat_type r.stat_value))
    let hasFloat := conv.any (fun x => isFloatVal x.2.2)
    let hasStr := conv.any (fun x => isStrVal x.2.2)
    let conv2 := if hasFloat && !hasStr then
        conv.map (fun x => (x.1, x.2.1, coerceNumeric x.2.2))
      else conv
    let idx := sortedDedup (conv2.map (fun x => x.1))
    let cols := sortedDedup (conv2.map (fun x => x.2.1))
    .pivoted idx cols
      (idx.map (fun p => cols.map (fun s =>
        (conv2.find? (fun x => x.1 == p && x.2.1 == s)).map (fun x => x.2.2))))

/-- The per-stat slot already stores exactly what processing `(stat, v)`
would write: a single row whose textual value and type tag match `v`. -/
def statSettled (db : Db) (player : String) (year : Int) (stat : String) (v : PyVal) : Prop :=
  (slotRows db player year stat).length = 1
  ∧ ∀ row ∈ slotRows db player year stat,
      row.stat_value = pyStr v ∧ type2str v = .ok row.stat_type

instance (db : Db) (p : String) (y : Int) (s : String) (v : PyVal) :
    Decidable (statSettled db p y s v) :=
  inferInstanceAs (Decidable ((slotRows db p y s).length = 1
    ∧ ∀ row ∈ slotRows db p y s, row.stat_value = pyStr v ∧ type2str v = Except.ok row.stat_type))

/-! ### Concrete stores used by the claims -/

/-- Playoff team of 2021 whose player is only assigned (and salaried) for
2019: the store exhibiting the missing year condition in the salary join. -/
def crossYearDb : Db :=
  { teams := ["TeamA"], players := ["P"],
    playoff_team := [⟨2021, "TeamA"⟩],
    team_player := [⟨"P", "TeamA", 2019⟩],
    player_salaries := [⟨"P", 2019, 100, "USD"⟩],
    player_stats := [] }

/-- Store after merging the two example statistics (`games_played = 42`,
`points_per_game = 24.5`) for one player. -/
def roundTripDb : Db :=
  (merge_player_stats { emptyDb with players := ["James"] } "James" 2021
    [("games_played", PyVal.int 42), ("points_per_game", PyVal.float (mkRat 49 2))]).1

/-- Two playoff teams of 2021 with one salaried player each. -/
def rankingExampleDb : Db :=
  { teams := ["TeamA", "TeamB"], players := ["A", "B"],
    playoff_team := [⟨2021, "TeamA"⟩, ⟨2021, "TeamB"⟩],
    team_player := [⟨"A", "TeamA", 2021⟩, ⟨"B", "TeamB", 2021⟩],
    player_salaries := [⟨"A", 2021, 30000000, "$"⟩, ⟨"B", 2021, 25000000, "$"⟩],
    player_stats := [] }

/-- A store that already holds every row the no-op witness re-merges. -/
def noopExampleDb : Db :=
  { teams := ["TeamA"], players := ["PlayerA"],
    playoff_team := [⟨2021, "TeamA"⟩],
    team_player := [⟨"PlayerA", "TeamA", 2021⟩],
    player_salaries := [⟨"PlayerA", 2021, 100, "USD"⟩],
    player_stats := [⟨"PlayerA", 2021, "postseason", "gp", "1", "Integer"⟩] }

/-- The stores the engine can produce: the fresh database followed by any
sequence of merge operations (for the fallible ones, the store component of
the result, whether or not the call raised). -/
inductive Reachable : Db → Prop where
  | empty : Reachable emptyDb
  | team {db} (t : String) : Reachable db → Reachable (merge_team db t)
  | playoff {db} (t : String) (y : Int) : Reachable db → Reachable (merge_playoff_team db t y)
  | player {db} (p : String) : Reachable db → Reachable (merge_player db p)
  | teamPlayer {db} (t p : String) (y : Int) : Reachable db → Reachable (merge_team_player db t p y)
  | salary {db} (p : String) (y s : Int) (c : String) :
      Reachable db → Reachable (merge_player_salary db p y s c).1
  | stats {db} (p : String) (y : Int) (l : List (String × PyVal)) :
      Reachable db → Reachable (merge_player_stats db p y l).1

/-! ### Helper lemmas about the merge operations -/

theorem merge_team_idem (db : Db) (team : String) :
    merge_team (merge_team db team) team = merge_team db team := by
  by_cases h : team ∈ db.teams
  · simp [merge_team, h]
  · simp [merge_team, h]

theorem merge_playoff_team_idem (db : Db) (team : String) (year : Int) :
    merge_playoff_team (merge_playoff_team db team year) team year
      = merge_playoff_team db team year := by
  unfold merge_playoff_team
  cases h : db.playoff_team.find? (fun r => r.team_name == team && r.year == year) with
  | some r => simp [h]
  | none => simp [h, List.find?_append]

theorem merge_player_idem (db : Db) (player : String) :
    merge_player (merge_player db player) player = merge_player db player := by
  by_cases h : player ∈ db.players
  · simp [merge_player, h]
  · simp [merge_player, h]

theorem tpKey_update (team player : String) (year : Int) (s : TeamPlayerRow) :
    tpKey player year (if tpKey player year s then { s with team_name := team } else s)
      = tpKey player year s := by
  by_cases hs : tpKey player year s
  · rw [if_pos hs]
    simp [tpKey]
  · rw [if_neg hs]

theorem merge_team_player_idem (db : Db) (team player : String) (year : Int) :
    merge_team_player (merge_team_player db team player year) team player year
      = merge_team_player db team player year := by
  unfold merge_team_player
  cases h : db.team_player.find? (tpKey player year) with
  | none =>
    simp [h, List.find?_append, tpKey]
  | some r =>
    have hr : tpKey player year r = true := List.find?_some h
    by_cases ht : r.team_name == team
    · simp [h, ht]
    · have hcomp : (tpKey player year ∘ fun s =>
          if tpKey player year s then { s with team_name := team } else s)
            = tpKey player year := funext (tpKey_update team player year)
      simp only [h, ht, if_neg, Bool.false_eq_true, if_false]
      simp only [List.find?_map, hcomp, h]
      simp [hr]

theorem salKey_update (player : String) (year salary : Int) (currency : String) (s : SalaryRow) :
    salKey player year
        (if salKey player year s then { s with salary := salary, salary_currency := currency } else s)
      = salKey player year s := by
  by_cases hs : salKey player year s
  · rw [if_pos hs]
    simp [salKey]
  · rw [if_neg hs]

theorem merge_player_salary_idem (db : Db) (player : String) (year salary : Int)
    (currency : String) :
    merge_player_salary (merge_player_salary db player year salary currency).1
        player year salary currency
      = merge_player_salary db player year salary currency := by
  unfold merge_player_salary
  cases hf : db.player_salaries.filter (salKey player year) with
  | nil =>
    simp [hf, oneOrNone, List.filter_append, salKey]
  | cons r rest =>
    cases rest with
    | cons r2 rest2 =>
      simp [hf, oneOrNone]
    | nil =>
      have hmem : r ∈ db.player_salaries.filter (salKey player year) := by
        rw [hf]; exact List.mem_cons_self r []
      have hr : salKey player year r = true := (List.mem_filter.mp hmem).2
      by_cases hv : (r.salary == salary && r.salary_currency == currency)
      · simp [hf, oneOrNone, hv]
      · have hcomp : (salKey player year ∘ fun s =>
            if salKey player year s then { s with salary := salary, salary_currency := currency }
            else s) = salKey player year :=
          funext (salKey_update player year salary currency)
        simp only [hf, oneOrNone, hv, Bool.false_eq_true, if_false]
        simp only [List.filter_map, hcomp, hf]
        simp [hr, oneOrNone]

theorem oneOrNone_ok_none {α : Type} {l : List α} (h : oneOrNone l = .ok none) : l = [] := by
  cases l with
  | nil => rfl
  | cons a t => cases t <;> simp [oneOrNone] at h

theorem oneOrNone_ok_some {α : Type} {l : List α} {a : α} (h : oneOrNone l = .ok (some a)) :
    l = [a] := by
  cases l with
  | nil => simp [oneOrNone] at h
  | cons b t =>
    cases t with
    | nil =>
      simp [oneOrNone] at h
      rw [h]
    | cons c u => simp [oneOrNone] at h

theorem statKey_condUpdate (p s1 s : String) (y : Int) (v2 t2 : String) (r : StatRow) :
    statKey p y s (if statKey p y s1 r then { r with stat_value := v2, stat_type := t2 } else r)
      = statKey p y s r := by
  by_cases hc : statKey p y s1 r
  · rw [if_pos hc]
    simp [statKey]
  · rw [if_neg hc]

theorem processStat_of_settled (db : Db) (p : String) (y : Int) (s : String) (v : PyVal)
    (h : statSettled db p y s v) : processStat db p y s v = (db, none) := by
  obtain ⟨hlen, hall⟩ := h
  obtain ⟨row, hrow⟩ := List.length_eq_one.mp hlen
  have hprops := hall row (by rw [hrow]; exact List.mem_cons_self row [])
  unfold processStat
  rw [hrow]
  simp only [oneOrNone]
  rw [hprops.2]
  simp [hprops.1]

theorem processStat_error_fst (db : Db) (p : String) (y : Int) (s : String) (v : PyVal)
    (h : (processStat db p y s v).2 ≠ none) : (processStat db p y s v).1 = db := by
  unfold processStat at h ⊢
  cases hoo : oneOrNone (slotRows db p y s) with
  | error e => simp [hoo]
  | ok r =>
    cases htv : type2str v with
    | error e => simp [hoo, htv]
    | ok t =>
      cases r with
      | none =>
        rw [hoo, htv] at h
        simp at h
      | some row =>
        rw [hoo, htv] at h
        by_cases hb : (row.stat_value == pyStr v && row.stat_type == t)
        · simp [hb] at h
        · simp [hb] at h

theorem statKey_name (p s : String) (y : Int) (r : StatRow) (hr : statKey p y s r = true) :
    r.player_name = p ∧ r.year = y ∧ r.stat_name = s := by
  have h2 : (r.player_name = p ∧ r.year = y) ∧ r.stat_name = s := by
    simpa [statKey] using hr
  exact ⟨h2.1.1, h2.1.2, h2.2⟩

theorem statKey_ne_of_key (p s s1 : String) (y : Int) (r : StatRow)
    (hr : statKey p y s r = true) (hne : s ≠ s1) : statKey p y s1 r = false := by
  obtain ⟨h1, h2, h3⟩ := statKey_name p s y r hr
  simp [statKey, h1, h2, h3]
  exact hne

theorem processStat_settled (db : Db) (p : String) (y : Int) (s : String) (v : PyVal)
    (h : (processStat db p y s v).2 = none) :
    statSettled (processStat db p y s v).1 p y s v := by
  unfold processStat at h ⊢
  cases hoo : oneOrNone (slotRows db p y s) with
  | error e =>
    rw [hoo] at h
    simp at h
  | ok r =>
    cases htv : type2str v with
    | error e =>
      rw [hoo, htv] at h
      simp at h
    | ok t =>
      cases r with
      | none =>
        have hnil : slotRows db p y s = [] := oneOrNone_ok_none hoo
        unfold slotRows at hnil
        simp only [hoo, htv]
        unfold statSettled slotRows
        simp [List.filter_append, hnil, statKey, htv]
      | some row =>
        have hone : slotRows db p y s = [row] := oneOrNone_ok_some hoo
        have hkey : statKey p y s row = true := by
          have hmem : row ∈ slotRows db p y s := by
            rw [hone]; exact List.mem_cons_self row []
          exact (List.mem_filter.mp hmem).2
        by_cases hb : (row.stat_value == pyStr v && row.stat_type == t)
        · simp only [hoo, htv, hb, if_true]
          refine ⟨by rw [hone]; rfl, ?_⟩
          intro r2 hr2
          rw [hone] at hr2
          simp at hr2
          subst hr2
          have hb2 := hb
          simp at hb2
          exact ⟨hb2.1, by rw [htv, hb2.2]⟩
        · have hcomp : (statKey p y s ∘ fun r =>
              if statKey p y s r then { r with stat_value := pyStr v, stat_type := t } else r)
                = statKey p y s := funext (statKey_condUpdate p s s y (pyStr v) t)
          simp only [hoo, htv, hb, Bool.false_eq_true, if_false]
          unfold statSettled slotRows
          unfold slotRows at hone
          simp only [List.filter_map, hcomp, hone]
          simp [hkey, htv]

theorem processStat_slot_frame (db : Db) (p : String) (y : Int) (s1 : String) (v1 : PyVal)
    (s : String) (hne : s ≠ s1) (hsucc : (processStat db p y s1 v1).2 = none) :
    slotRows (processStat db p y s1 v1).1 p y s = slotRows db p y s := by
  have hne1 : (s1 == s) = false := by
    simp only [beq_eq_false_iff_ne, ne_eq]
    exact fun hx => hne hx.symm
  unfold processStat at hsucc ⊢
  cases hoo : oneOrNone (slotRows db p y s1) with
  | error e =>
    rw [hoo] at hsucc
  | ok r =>
    cases htv : type2str v1 with
    | error e =>
      rw [hoo, htv] at hsucc
    | ok t =>
      cases r with
      | none =>
        simp only [hoo, htv]
        unfold slotRows
        simp [List.filter_append, statKey, hne1]
      | some row =>
        by_cases hb : (row.stat_value == pyStr v1 && row.stat_type == t)
        · simp [hoo, htv, hb]
        · have hcomp : (statKey p y s ∘ fun r =>
              if statKey p y s1 r then { r with stat_value := pyStr v1, stat_type := t } else r)
                = statKey p y s := funext (statKey_condUpdate p s1 s y (pyStr v1) t)
          simp only [hoo, htv, hb, Bool.false_eq_true, if_false]
          unfold slotRows
          simp only [List.filter_map, hcomp]
          have hid : ∀ r2 ∈ db.player_stats.filter (statKey p y s),
              (if statKey p y s1 r2 then { r2 with stat_value := pyStr v1, stat_type := t }
                else r2) = r2 := by
            intro r2 hr2
            have hk2 : statKey p y s r2 = true := (List.mem_filter.mp hr2).2
            rw [if_neg]
            rw [statKey_ne_of_key p s s1 y r2 hk2 hne]
            exact fun hx => Bool.noConfusion hx
          rw [List.map_congr_left hid]
          simp

theorem merge_player_stats_cons (db : Db) (p : String) (y : Int) (s : String) (v : PyVal)
    (tl : List (String × PyVal)) :
    merge_player_stats db p y ((s, v) :: tl)
      = match processStat db p y s v with
        | (db1, none) => merge_player_stats db1 p y tl
        | (db1, some e) => (db1, some e) := rfl

theorem merge_player_stats_slot_frame (p : String) (y : Int) (L : List (String × PyVal)) :
    ∀ (db : Db) (s : String), s ∉ L.map Prod.fst →
      slotRows (merge_player_stats db p y L).1 p y s = slotRows db p y s := by
  induction L with
  | nil =>
    intro db s _
    rfl
  | cons hd tl ih =>
    intro db s hs
    obtain ⟨s1, v1⟩ := hd
    have hsplit : s ≠ s1 ∧ s ∉ tl.map Prod.fst := by
      constructor
      · intro hx
        exact hs (by rw [hx]; exact List.mem_cons_self s1 (tl.map Prod.fst))
      · intro hx
        exact hs (List.mem_cons_of_mem s1 hx)
    rw [merge_player_stats_cons]
    cases hp : processStat db p y s1 v1 with
    | mk db1 err =>
      cases err with
      | none =>
        have hfr : slotRows db1 p y s = slotRows db p y s := by
          have := processStat_slot_frame db p y s1 v1 s hsplit.1 (by rw [hp])
          rw [hp] at this
          exact this
        simpa [ih db1 s hsplit.2] using hfr
      | some e =>
        have hdb1 : db1 = db := by
          have := processStat_error_fst db p y s1 v1 (by rw [hp]; exact fun hx => Option.noConfusion hx)
          rw [hp] at this
          exact this
        simp [hdb1]

theorem merge_player_stats_idem (p : String) (y : Int) (L : List (String × PyVal)) :
    ∀ db : Db, (L.map Prod.fst).Nodup →
      merge_player_stats (merge_player_stats db p y L).1 p y L
        = merge_player_stats db p y L := by
  induction L with
  | nil =>
    intro db _
    rfl
  | cons hd tl ih =>
    intro db hnd
    obtain ⟨s1, v1⟩ := hd
    have hnd2 : s1 ∉ tl.map Prod.fst ∧ (tl.map Prod.fst).Nodup := by
      simpa using hnd
    cases hp : processStat db p y s1 v1 with
    | mk db1 err =>
      cases err with
      | some e =>
        have hdb1 : db1 = db := by
          have := processStat_error_fst db p y s1 v1 (by rw [hp]; exact fun hx => Option.noConfusion hx)
          rw [hp] at this
          exact this
        have hfull : merge_player_stats db p y ((s1, v1) :: tl) = (db, some e) := by
          rw [merge_player_stats_cons, hp, hdb1]
        rw [hfull]
        exact hfull
      | none =>
        have hfull : merge_player_stats db p y ((s1, v1) :: tl)
            = merge_player_stats db1 p y tl := by
          rw [merge_player_stats_cons, hp]
        have hset : statSettled db1 p y s1 v1 := by
          have := processStat_settled db p y s1 v1 (by rw [hp])
          rw [hp] at this
          exact this
        have hslot : slotRows (merge_player_stats db1 p y tl).1 p y s1 = slotRows db1 p y s1 :=
          merge_player_stats_slot_frame p y tl db1 s1 hnd2.1
        have hset2 : statSettled (merge_player_stats db1 p y tl).1 p y s1 v1 := by
          unfold statSettled at hset ⊢
          rw [hslot]
          exact hset
        have hstep : merge_player_stats (merge_player_stats db1 p y tl).1 p y ((s1, v1) :: tl)
            = merge_player_stats (merge_player_stats db1 p y tl).1 p y tl := by
          rw [merge_player_stats_cons,
            processStat_of_settled (merge_player_stats db1 p y tl).1 p y s1 v1 hset2]
        rw [hfull, hstep]
        exact ih db1 hnd2.2

theorem eq_singleton_of_mem_length_le_one {α : Type} {l : List α} (h : l.length ≤ 1)
    {a : α} (ha : a ∈ l) : l = [a] := by
  cases l with
  | nil => exact absurd ha (List.not_mem_nil a)
  | cons x t =>
    cases t with
    | nil =>
      simp at ha
      rw [ha]
    | cons z u => simp at h

theorem merge_team_noop (db : Db) (team : String) (h : team ∈ db.teams) :
    merge_team db team = db := by
  simp [merge_team, h]

theorem merge_player_noop (db : Db) (player : String) (h : player ∈ db.players) :
    merge_player db player = db := by
  simp [merge_player, h]

theorem merge_playoff_team_noop (db : Db) (team : String) (year : Int)
    (h : ∃ r ∈ db.playoff_team, r.team_name = team ∧ r.year = year) :
    merge_playoff_team db team year = db := by
  unfold merge_playoff_team
  cases hf : db.playoff_team.find? (fun r => r.team_name == team && r.year == year) with
  | some r => rfl
  | none =>
    exfalso
    obtain ⟨r, hmem, h1, h2⟩ := h
    have := List.find?_eq_none.mp hf r hmem
    simp [h1, h2] at this

theorem merge_team_player_noop (db : Db) (team player : String) (year : Int)
    (hmem : (⟨player, team, year⟩ : TeamPlayerRow) ∈ db.team_player)
    (huc : (db.team_player.filter (tpKey player year)).length ≤ 1) :
    merge_team_player db team player year = db := by
  have hkey : tpKey player year (⟨player, team, year⟩ : TeamPlayerRow) = true := by
    simp [tpKey]
  have hx : (⟨player, team, year⟩ : TeamPlayerRow) ∈ db.team_player.filter (tpKey player year) :=
    List.mem_filter.mpr ⟨hmem, hkey⟩
  unfold merge_team_player
  cases hf : db.team_player.find? (tpKey player year) with
  | none =>
    exfalso
    have := List.find?_eq_none.mp hf _ hmem
    rw [hkey] at this
    exact this rfl
  | some r =>
    have hr : tpKey player year r = true := List.find?_some hf
    have hrf : r ∈ db.team_player.filter (tpKey player year) :=
      List.mem_filter.mpr ⟨List.mem_of_find?_eq_some hf, hr⟩
    have hsing := eq_singleton_of_mem_length_le_one huc hx
    rw [hsing] at hrf
    simp at hrf
    rw [hrf]
    simp

theorem merge_player_salary_noop (db : Db) (player : String) (year salary : Int)
    (currency : String)
    (hmem : (⟨player, year, salary, currency⟩ : SalaryRow) ∈ db.player_salaries)
    (huc : (db.player_salaries.filter (salKey player year)).length ≤ 1) :
    merge_player_salary db player year salary currency = (db, none) := by
  have hkey : salKey player year (⟨player, year, salary, currency⟩ : SalaryRow) = true := by
    simp [salKey]
  have hx : (⟨player, year, salary, currency⟩ : SalaryRow)
      ∈ db.player_salaries.filter (salKey player year) :=
    List.mem_filter.mpr ⟨hmem, hkey⟩
  have hsing := eq_singleton_of_mem_length_le_one huc hx
  unfold merge_player_salary
  rw [hsing]
  simp [oneOrNone]

theorem merge_player_stats_noop (p : String) (y : Int) (L : List (String × PyVal)) :
    ∀ db : Db, (∀ x ∈ L, statSettled db p y x.1 x.2) →
      merge_player_stats db p y L = (db, none) := by
  induction L with
  | nil =>
    intro db _
    rfl
  | cons hd tl ih =>
    intro db hall
    obtain ⟨s1, v1⟩ := hd
    have h1 : statSettled db p y s1 v1 := hall (s1, v1) (List.mem_cons_self _ _)
    rw [merge_player_stats_cons, processStat_of_settled db p y s1 v1 h1]
    exact ih db (fun x hx => hall x (List.mem_cons_of_mem _ hx))

theorem merge_team_player_sets (db : Db) (team player : String) (year : Int)
    (huc : (db.team_player.filter (tpKey player year)).length ≤ 1) :
    (merge_team_player db team player year).team_player.filter (tpKey player year)
      = [⟨player, team, year⟩] := by
  unfold merge_team_player
  cases hf : db.team_player.find? (tpKey player year) with
  | none =>
    have hnil : db.team_player.filter (tpKey player year) = [] := by
      rw [List.filter_eq_nil_iff]
      intro a ha
      have := List.find?_eq_none.mp hf a ha
      simpa using this
    simp [List.filter_append, hnil, tpKey]
  | some r =>
    have hr : tpKey player year r = true := List.find?_some hf
    have hrf : r ∈ db.team_player.filter (tpKey player year) :=
      List.mem_filter.mpr ⟨List.mem_of_find?_eq_some hf, hr⟩
    have hfil : db.team_player.filter (tpKey player year) = [r] :=
      eq_singleton_of_mem_length_le_one huc hrf
    obtain ⟨hpn, hyr, hnm⟩ : r.player_name = player ∧ r.year = year ∧ True := by
      have h2 : (r.player_name = player ∧ r.year = year) := by
        have := hr
        simp [tpKey] at this
        exact this
      exact ⟨h2.1, h2.2, trivial⟩
    by_cases ht : r.team_name == team
    · have hteq : r.team_name = team := by simpa using ht
      simp only [ht, if_true]
      rw [hfil]
      cases r
      simp at hpn hyr hteq
      rw [hpn, hyr, hteq]
    · have hcomp : (tpKey player year ∘ fun s =>
          if tpKey player year s then { s with team_name := team } else s)
            = tpKey player year := funext (tpKey_update team player year)
      simp only [ht, Bool.false_eq_true, if_false]
      simp only [List.filter_map, hcomp, hfil]
      simp only [List.map_cons, List.map_nil, if_pos hr]
      cases r
      simp at hpn hyr
      rw [hpn, hyr]

theorem processStat_season (db : Db) (p : String) (y : Int) (s : String) (v : PyVal)
    (h : ∀ r ∈ db.player_stats, r.season = "postseason") :
    ∀ r ∈ ((processStat db p y s v).1).player_stats, r.season = "postseason" := by
  unfold processStat
  cases hoo : oneOrNone (slotRows db p y s) with
  | error e => exact h
  | ok ro =>
    cases htv : type2str v with
    | error e => exact h
    | ok t =>
      cases ro with
      | none =>
        intro r hr
        simp at hr
        cases hr with
        | inl hin => exact h r hin
        | inr hnew => rw [hnew]
      | some row =>
        by_cases hb : (row.stat_value == pyStr v && row.stat_type == t)
        · simp only [hb, if_true]
          exact h
        · simp only [hb, Bool.false_eq_true, if_false]
          intro r hr
          simp at hr
          obtain ⟨r0, hr0, hr0eq⟩ := hr
          by_cases hk : statKey p y s r0
          · rw [if_pos hk] at hr0eq
            rw [← hr0eq]
            exact h r0 hr0
          · rw [if_neg hk] at hr0eq
            rw [← hr0eq]
            exact h r0 hr0

theorem merge_player_stats_season (p : String) (y : Int) (L : List (String × PyVal)) :
    ∀ db : Db, (∀ r ∈ db.player_stats, r.season = "postseason") →
      ∀ r ∈ ((merge_player_stats db p y L).1).player_stats, r.season = "postseason" := by
  induction L with
  | nil =>
    intro db h
    exact h
  | cons hd tl ih =>
    intro db h
    obtain ⟨s1, v1⟩ := hd
    rw [merge_player_stats_cons]
    cases hp : processStat db p y s1 v1 with
    | mk db1 err =>
      have hdb1 : ∀ r ∈ db1.player_stats, r.season = "postseason" := by
        have := processStat_season db p y s1 v1 h
        rw [hp] at this
        exact this
      cases err with
      | none => exact ih db1 hdb1
      | some e => exact hdb1

theorem merge_team_preserves_stats (db : Db) (t : String) :
    (merge_team db t).player_stats = db.player_stats := by
  unfold merge_team
  split <;> rfl

theorem merge_playoff_team_preserves_stats (db : Db) (t : String) (y : Int) :
    (merge_playoff_team db t y).player_stats = db.player_stats := by
  unfold merge_playoff_team
  split <;> rfl

theorem merge_player_preserves_stats (db : Db) (p : String) :
    (merge_player db p).player_stats = db.player_stats := by
  unfold merge_player
  split <;> rfl

theorem merge_team_player_preserves_stats (db : Db) (t p : String) (y : Int) :
    (merge_team_player db t p y).player_stats = db.player_stats := by
  unfold merge_team_player
  split
  · rfl
  · split <;> rfl

theorem merge_player_salary_preserves_stats (db : Db) (p : String) (y s : Int) (c : String) :
    ((merge_player_salary db p y s c).1).player_stats = db.player_stats := by
  unfold merge_player_salary
  split
  · rfl
  · rfl
  · split <;> rfl

theorem reachable_season (db : Db) (h : Reachable db) :
    ∀ r ∈ db.player_stats, r.season = "postseason" := by
  induction h with
  | empty =>
    intro r hr
    simp [emptyDb] at hr
  | team t hdb ih =>
    rw [merge_team_preserves_stats]
    exact ih
  | playoff t y hdb ih =>
    rw [merge_playoff_team_preserves_stats]
    exact ih
  | player p hdb ih =>
    rw [merge_player_preserves_stats]
    exact ih
  | teamPlayer t p y hdb ih =>
    rw [merge_team_player_preserves_stats]
    exact ih
  | salary p y s c hdb ih =>
    rw [merge_player_salary_preserves_stats]
    exact ih
  | stats p y l hdb ih =>
    exact merge_player_stats_season p y l _ ih

theorem fetch_player_stats_of_no_rows (db : Db) (year : Int) (season : String)
    (h : db.player_stats.filter (fun r => r.year == year && r.season == season) = []) :
    fetch_player_stats db year season
      = DataFrame.raw ["PLAYER", "STAT_NAME", "STAT_VALUE", "STAT_TYPE"] [] := by
  unfold fetch_player_stats
  rw [h]

/-! ### Lemmas about the stable insertion sort -/

theorem perm_insertLe {α : Type} (le : α → α → Bool) (a : α) (l : List α) :
    List.Perm (insertLe le a l) (a :: l) := by
  induction l with
  | nil => exact List.Perm.refl [a]
  | cons b bs ih =>
    unfold insertLe
    by_cases h : le a b
    · rw [if_pos h]
    · rw [if_neg h]
      exact (List.Perm.cons b ih).trans (List.Perm.swap a b bs)

theorem perm_sortLe {α : Type} (le : α → α → Bool) (l : List α) :
    List.Perm (sortLe le l) l := by
  induction l with
  | nil => exact List.Perm.refl []
  | cons a as ih =>
    unfold sortLe
    exact (perm_insertLe le a (sortLe le as)).trans (List.Perm.cons a ih)

theorem mem_insertLe {α : Type} (le : α → α → Bool) (a : α) (l : List α) (x : α) :
    x ∈ insertLe le a l ↔ x = a ∨ x ∈ l := by
  rw [(perm_insertLe le a l).mem_iff]
  exact List.mem_cons

theorem pairwise_insertLe {α : Type} (le : α → α → Bool)
    (htrans : ∀ x z w, le x z = true → le z w = true → le x w = true)
    (htot : ∀ x z, le x z = true ∨ le z x = true) (a : α) (l : List α)
    (hl : l.Pairwise (fun x z => le x z = true)) :
    (insertLe le a l).Pairwise (fun x z => le x z = true) := by
  induction l with
  | nil => simp [insertLe]
  | cons b bs ih =>
    rcases List.pairwise_cons.mp hl with ⟨hb, hbs⟩
    unfold insertLe
    by_cases h : le a b
    · rw [if_pos h]
      apply List.Pairwise.cons
      · intro x hx
        rcases List.mem_cons.mp hx with hxb | hx2
        · rw [hxb]
          exact h
        · exact htrans a b x h (hb x hx2)
      · exact hl
    · rw [if_neg h]
      apply List.Pairwise.cons
      · intro x hx
        rcases (mem_insertLe le a bs x).mp hx with hxa | hx2
        · rcases htot a b with hab | hba
          · exact absurd hab h
          · rw [hxa]
            exact hba
        · exact hb x hx2
      · exact ih hbs

theorem pairwise_sortLe {α : Type} (le : α → α → Bool)
    (htrans : ∀ x z w, le x z = true → le z w = true → le x w = true)
    (htot : ∀ x z, le x z = true ∨ le z x = true) (l : List α) :
    (sortLe le l).Pairwise (fun x z => le x z = true) := by
  induction l with
  | nil => exact List.Pairwise.nil
  | cons a as ih => exact pairwise_insertLe le htrans htot a (sortLe le as) ih

/-! ### Success and failure of merge_player_stats per stat kind -/

theorem type2str_not_ok (v : PyVal) (h : ¬(type2str v).isOk = true) :
    type2str v = .error "Unexpected type for statistic" := by
  cases v <;> simp [type2str, Except.isOk, Except.toBool] at h ⊢

theorem processStat_ok (db : Db) (p : String) (y : Int) (s : String) (v : PyVal)
    (hslot : (slotRows db p y s).length ≤ 1) (hv : (type2str v).isOk = true) :
    (processStat db p y s v).2 = none := by
  unfold processStat
  cases hsl : slotRows db p y s with
  | nil =>
    cases htv : type2str v with
    | error e =>
      rw [htv] at hv
      simp [Except.isOk, Except.toBool] at hv
    | ok t => simp [oneOrNone, htv]
  | cons a t2 =>
    cases t2 with
    | nil =>
      cases htv : type2str v with
      | error e =>
        rw [htv] at hv
        simp [Except.isOk, Except.toBool] at hv
      | ok t =>
        by_cases hb : (a.stat_value == pyStr v && a.stat_type == t)
        · simp [oneOrNone, htv, hb]
        · simp [oneOrNone, htv, hb]
    | cons b u =>
      rw [hsl] at hslot
      simp at hslot

theorem processStat_bad (db : Db) (p : String) (y : Int) (s : String) (v : PyVal)
    (hslot : (slotRows db p y s).length ≤ 1) (hv : ¬(type2str v).isOk = true) :
    processStat db p y s v = (db, some "Unexpected type for statistic") := by
  have htv := type2str_not_ok v hv
  unfold processStat
  cases hsl : slotRows db p y s with
  | nil => simp [oneOrNone, htv]
  | cons a t2 =>
    cases t2 with
    | nil => simp [oneOrNone, htv]
    | cons b u =>
      rw [hsl] at hslot
      simp at hslot

theorem processStat_preserves_slots (db : Db) (p : String) (y : Int) (s1 : String) (v1 : PyVal)
    (hsucc : (processStat db p y s1 v1).2 = none)
    (hslots : ∀ s, (slotRows db p y s).length ≤ 1) :
    ∀ s, (slotRows (processStat db p y s1 v1).1 p y s).length ≤ 1 := by
  intro s
  by_cases he : s = s1
  · rw [he]
    have hset := processStat_settled db p y s1 v1 hsucc
    exact Nat.le_of_eq hset.1
  · rw [processStat_slot_frame db p y s1 v1 s he hsucc]
    exact hslots s

theorem merge_player_stats_all_ok (p : String) (y : Int) (L : List (String × PyVal)) :
    ∀ db : Db, (∀ s, (slotRows db p y s).length ≤ 1) →
      (∀ x ∈ L, (type2str x.2).isOk = true) →
      (merge_player_stats db p y L).2 = none := by
  induction L with
  | nil =>
    intro db _ _
    rfl
  | cons hd tl ih =>
    intro db hslots hall
    obtain ⟨s1, v1⟩ := hd
    have h1 : (type2str v1).isOk = true := hall (s1, v1) (List.mem_cons_self _ _)
    have hs1 := processStat_ok db p y s1 v1 (hslots s1) h1
    rw [merge_player_stats_cons]
    cases hp : processStat db p y s1 v1 with
    | mk db1 err =>
      cases err with
      | some e =>
        rw [hp] at hs1
        simp at hs1
      | none =>
        have hpres : ∀ s, (slotRows db1 p y s).length ≤ 1 := by
          intro s
          have h2 := processStat_preserves_slots db p y s1 v1 (by rw [hp]) hslots s
          rw [hp] at h2
          exact h2
        exact ih db1 hpres (fun x hx => hall x (List.mem_cons_of_mem _ hx))

theorem merge_player_stats_some_bad (p : String) (y : Int) (L : List (String × PyVal)) :
    ∀ db : Db, (∀ s, (slotRows db p y s).length ≤ 1) →
      (∃ x ∈ L, ¬(type2str x.2).isOk = true) →
      (merge_player_stats db p y L).2 = some "Unexpected type for statistic" := by
  induction L with
  | nil =>
    intro db _ hex
    simp at hex
  | cons hd tl ih =>
    intro db hslots hex
    obtain ⟨s1, v1⟩ := hd
    by_cases h1 : (type2str v1).isOk = true
    · have hs1 := processStat_ok db p y s1 v1 (hslots s1) h1
      have hex2 : ∃ x ∈ tl, ¬(type2str x.2).isOk = true := by
        obtain ⟨x, hx, hbad⟩ := hex
        cases List.mem_cons.mp hx with
        | inl heq =>
          rw [heq] at hbad
          exact absurd h1 hbad
        | inr hmem => exact ⟨x, hmem, hbad⟩
      rw [merge_player_stats_cons]
      cases hp : processStat db p y s1 v1 with
      | mk db1 err =>
        cases err with
        | some e =>
          rw [hp] at hs1
          simp at hs1
        | none =>
          have hpres : ∀ s, (slotRows db1 p y s).length ≤ 1 := by
            intro s
            have h2 := processStat_preserves_slots db p y s1 v1 (by rw [hp]) hslots s
            rw [hp] at h2
            exact h2
          exact ih db1 hpres hex2
    · have hb := processStat_bad db p y s1 v1 (hslots s1) h1
      rw [merge_player_stats_cons, hb]

theorem fetch_salary_pairwise (db : Db) (year : Int) (limit : Option Nat) :
    (fetch_player_salary_playoffs db year limit).Pairwise
      (fun a b => b.salary ≤ a.salary) := by
  have htrans : ∀ x z w : PlayerYearModel,
      decide (z.salary ≤ x.salary) = true → decide (w.salary ≤ z.salary) = true →
      decide (w.salary ≤ x.salary) = true := by
    intro x z w h1 h2
    simp at h1 h2 ⊢
    exact le_trans h2 h1
  have htot : ∀ x z : PlayerYearModel,
      decide (z.salary ≤ x.salary) = true ∨ decide (x.salary ≤ z.salary) = true := by
    intro x z
    rcases le_total z.salary x.salary with h | h
    · left
      simpa using h
    · right
      simpa using h
  have hp := pairwise_sortLe (fun a b => decide (b.salary ≤ a.salary)) htrans htot
    (salaryJoinRows db year)
  have hp2 : (sortLe (fun a b => decide (b.salary ≤ a.salary))
      (salaryJoinRows db year)).Pairwise (fun a b => b.salary ≤ a.salary) :=
    hp.imp (fun h => of_decide_eq_true h)
  unfold fetch_player_salary_playoffs
  cases limit with
  | none => exact hp2
  | some n => exact List.Pairwise.sublist (List.take_sublist n _) hp2

theorem fetch_salary_length (db : Db) (year : Int) (n : Nat) :
    (fetch_player_salary_playoffs db year (some n)).length ≤ n := by
  unfold fetch_player_salary_playoffs
  simp [List.length_take]

theorem fetch_salary_perm (db : Db) (year : Int) :
    List.Perm (fetch_player_salary_playoffs db year none) (salaryJoinRows db year) :=
  perm_sortLe _ _


/-! ### Claim theorems -/

/-- Claim C1 (refuted by the code, confirming a bug): on `crossYearDb`,
`fetch_player_salary_playoffs 2021` returns one row even though the store
has no team assignment and no salary for 2021 at all — the join matches
`team_player` on the team name only, so the 2019 assignment and the 2019
salary are attached to the 2021 playoff participation, contradicting the
claim that every returned row uses a team assignment (and salary) of the
queried year. -/
theorem fetch_top_salaries_uses_cross_year_assignment :
    fetch_player_salary_playoffs crossYearDb 2021 none
        = [⟨2021, "TeamA", "P", 100, "USD"⟩]
    ∧ crossYearDb.team_player.filter (fun tp => tp.year == 2021) = []
    ∧ crossYearDb.player_salaries.filter (fun s => s.year == 2021) = [] := by
  decide

/-- Claim C2, counterexample: on the empty store the frame returned by
`fetch_player_stats` is the unpivoted one with the four columns
`[PLAYER, STAT_NAME, STAT_VALUE, STAT_TYPE]`; in particular it carries the
extra `STAT_TYPE` column, so its column set is not the claimed
`[PLAYER, STAT_NAME, STAT_VALUE]` pivoted into zero stat columns. -/
theorem fetch_player_stats_empty_has_stat_type_column :
    fetch_player_stats emptyDb 2000 "postseason"
        = DataFrame.raw ["PLAYER", "STAT_NAME", "STAT_VALUE", "STAT_TYPE"] []
    ∧ "STAT_TYPE" ∈ dfColumns (fetch_player_stats emptyDb 2000 "postseason")
    ∧ dfColumns (fetch_player_stats emptyDb 2000 "postseason")
        ≠ ["PLAYER", "STAT_NAME", "STAT_VALUE"] := by
  decide

/-- Claim C2 as amended: whenever no `player_stats` row matches the queried
year and season, `fetch_player_stats` returns the zero-row unpivoted frame
with columns `[PLAYER, STAT_NAME, STAT_VALUE, STAT_TYPE]` (the frame built
before the select, never pivoted). -/
theorem fetch_player_stats_empty_shape (db : Db) (year : Int) (season : String)
    (h : db.player_stats.filter (fun r => r.year == year && r.season == season) = []) :
    fetch_player_stats db year season
      = DataFrame.raw ["PLAYER", "STAT_NAME", "STAT_VALUE", "STAT_TYPE"] [] :=
  fetch_player_stats_of_no_rows db year season h

/-- Witness for the amended C2: the empty store at year 2000, postseason. -/
theorem fetch_player_stats_empty_shape_witness :
    emptyDb.player_stats.filter (fun r => r.year == 2000 && r.season == "postseason") = []
    ∧ fetch_player_stats emptyDb 2000 "postseason"
        = DataFrame.raw ["PLAYER", "STAT_NAME", "STAT_VALUE", "STAT_TYPE"] [] :=
  ⟨by decide, fetch_player_stats_empty_shape emptyDb 2000 "postseason" (by decide)⟩

/-- Claim C3, counterexample: after merging `games_played = 42` (Integer)
and `points_per_game = 24.5` (Float) for one player, the fetched pivoted
frame holds `games_played` as the float `42.0`, not as the integer `42` —
pandas unifies the mixed Integer/Float column to float, exactly as the
comment in `fetch_player_stats` says. -/
theorem fetch_round_trip_games_played_not_integer :
    fetch_player_stats roundTripDb 2021 "postseason"
        = DataFrame.pivoted ["James"] ["games_played", "points_per_game"]
            [[some (PyVal.float (mkRat 42 1)), some (PyVal.float (mkRat 49 2))]]
    ∧ fetch_player_stats roundTripDb 2021 "postseason"
        ≠ DataFrame.pivoted ["James"] ["games_played", "points_per_game"]
            [[some (PyVal.int 42), some (PyVal.float (mkRat 49 2))]] := by
  decide

/-- Claim C3 as amended: the round trip reconstructs `points_per_game` as
the floating-point value `24.5` and `games_played` as the floating-point
value `42.0` (coerced from integer because the result column mixes the
Integer and Float kinds); neither comes back as text. -/
theorem fetch_round_trip_reconstructs_floats :
    fetch_player_stats roundTripDb 2021 "postseason"
      = DataFrame.pivoted ["James"] ["games_played", "points_per_game"]
          [[some (PyVal.float (mkRat 42 1)), some (PyVal.float (mkRat 49 2))]] := by
  decide

/-- Claim C4: each of the six merge operations is idempotent on every
store: running it a second time with identical arguments reproduces the
state (and, for the fallible operations, the error outcome) of the first
run.  For `merge_player_stats` the mapping's keys are distinct, as they are
for every Python `dict`. -/
theorem merge_operations_idempotent (db : Db) (team player : String) (year salary : Int)
    (currency : String) (stats : List (String × PyVal))
    (hkeys : (stats.map Prod.fst).Nodup) :
    merge_team (merge_team db team) team = merge_team db team
    ∧ merge_playoff_team (merge_playoff_team db team year) team year
        = merge_playoff_team db team year
    ∧ merge_player (merge_player db player) player = merge_player db player
    ∧ merge_team_player (merge_team_player db team player year) team player year
        = merge_team_player db team player year
    ∧ merge_player_salary (merge_player_salary db player year salary currency).1
          player year salary currency
        = merge_player_salary db player year salary currency
    ∧ merge_player_stats (merge_player_stats db player year stats).1 player year stats
        = merge_player_stats db player year stats :=
  ⟨merge_team_idem db team, merge_playoff_team_idem db team year, merge_player_idem db player,
    merge_team_player_idem db team player year,
    merge_player_salary_idem db player year salary currency,
    merge_player_stats_idem player year stats db hkeys⟩

/-- Witness for C4 at a concrete store and argument tuple. -/
theorem merge_operations_idempotent_witness :
    ((([("gp", PyVal.int 1)] : List (String × PyVal)).map Prod.fst).Nodup)
    ∧ (merge_team (merge_team noopExampleDb "TeamA") "TeamA"
          = merge_team noopExampleDb "TeamA"
      ∧ merge_playoff_team (merge_playoff_team noopExampleDb "TeamA" 2021) "TeamA" 2021
          = merge_playoff_team noopExampleDb "TeamA" 2021
      ∧ merge_player (merge_player noopExampleDb "PlayerA") "PlayerA"
          = merge_player noopExampleDb "PlayerA"
      ∧ merge_team_player (merge_team_player noopExampleDb "TeamA" "PlayerA" 2021)
            "TeamA" "PlayerA" 2021
          = merge_team_player noopExampleDb "TeamA" "PlayerA" 2021
      ∧ merge_player_salary
            (merge_player_salary noopExampleDb "PlayerA" 2021 100 "USD").1
            "PlayerA" 2021 100 "USD"
          = merge_player_salary noopExampleDb "PlayerA" 2021 100 "USD"
      ∧ merge_player_stats
            (merge_player_stats noopExampleDb "PlayerA" 2021 [("gp", PyVal.int 1)]).1
            "PlayerA" 2021 [("gp", PyVal.int 1)]
          = merge_player_stats noopExampleDb "PlayerA" 2021 [("gp", PyVal.int 1)]) :=
  ⟨by decide,
    merge_operations_idempotent noopExampleDb "TeamA" "PlayerA" 2021 100 "USD"
      [("gp", PyVal.int 1)] (by decide)⟩

/-- Claim C5: on a store satisfying the `unique(player_name, year)`
constraint of `nba_team_player`, merging `(P, A, Y)` and then `(P, B, Y)`
leaves exactly one row under the key `(P, Y)`, and its team is `B`
(last write wins, never a duplicate). -/
theorem merge_team_player_overwrite (db : Db) (P A B : String) (Y : Int)
    (hAB : A ≠ B)
    (huc : (db.team_player.filter (tpKey P Y)).length ≤ 1) :
    ((merge_team_player (merge_team_player db A P Y) B P Y).team_player.filter (tpKey P Y))
      = [⟨P, B, Y⟩] := by
  have h1 := merge_team_player_sets db A P Y huc
  have huc2 : ((merge_team_player db A P Y).team_player.filter (tpKey P Y)).length ≤ 1 := by
    rw [h1]
    simp
  exact merge_team_player_sets (merge_team_player db A P Y) B P Y huc2

/-- Witness for C5: overwrite TeamA by TeamB for one player on the empty
store. -/
theorem merge_team_player_overwrite_witness :
    ("TeamA" : String) ≠ "TeamB"
    ∧ ((merge_team_player (merge_team_player emptyDb "TeamA" "PlayerA" 2021)
          "TeamB" "PlayerA" 2021).team_player.filter (tpKey "PlayerA" 2021))
        = [⟨"PlayerA", "TeamB", 2021⟩] :=
  ⟨by decide, merge_team_player_overwrite emptyDb "PlayerA" "TeamA" "TeamB" 2021
    (by decide) (by decide)⟩

/-- Claim C6: for each merge operation, when the row under the unique key
already exists with exactly the new values (uniqueness as enforced by the
schema), the call returns the store unchanged — same list of rows in every
table, nothing rewritten — and the fallible operations raise nothing. -/
theorem merge_operations_noop_when_unchanged (db : Db) (team player : String)
    (year salary : Int) (currency : String) (stats : List (String × PyVal)) :
    (team ∈ db.teams → merge_team db team = db)
    ∧ ((∃ r ∈ db.playoff_team, r.team_name = team ∧ r.year = year) →
        merge_playoff_team db team year = db)
    ∧ (player ∈ db.players → merge_player db player = db)
    ∧ ((⟨player, team, year⟩ : TeamPlayerRow) ∈ db.team_player →
        (db.team_player.filter (tpKey player year)).length ≤ 1 →
        merge_team_player db team player year = db)
    ∧ ((⟨player, year, salary, currency⟩ : SalaryRow) ∈ db.player_salaries →
        (db.player_salaries.filter (salKey player year)).length ≤ 1 →
        merge_player_salary db player year salary currency = (db, none))
    ∧ ((∀ x ∈ stats, statSettled db player year x.1 x.2) →
        merge_player_stats db player year stats = (db, none)) :=
  ⟨merge_team_noop db team,
    merge_playoff_team_noop db team year,
    merge_player_noop db player,
    merge_team_player_noop db team player year,
    merge_player_salary_noop db player year salary currency,
    merge_player_stats_noop player year stats db⟩

/-- Witness for C6: every operation re-merging data already stored in
`noopExampleDb` leaves the store untouched. -/
theorem merge_operations_noop_when_unchanged_witness :
    merge_team noopExampleDb "TeamA" = noopExampleDb
    ∧ merge_playoff_team noopExampleDb "TeamA" 2021 = noopExampleDb
    ∧ merge_player noopExampleDb "PlayerA" = noopExampleDb
    ∧ merge_team_player noopExampleDb "TeamA" "PlayerA" 2021 = noopExampleDb
    ∧ merge_player_salary noopExampleDb "PlayerA" 2021 100 "USD" = (noopExampleDb, none)
    ∧ merge_player_stats noopExampleDb "PlayerA" 2021 [("gp", PyVal.int 1)]
        = (noopExampleDb, none) := by
  obtain ⟨h1, h2, h3, h4, h5, h6⟩ := merge_operations_noop_when_unchanged noopExampleDb
    "TeamA" "PlayerA" 2021 100 "USD" [("gp", PyVal.int 1)]
  exact ⟨h1 (by decide), h2 (by decide), h3 (by decide), h4 (by decide) (by decide),
    h5 (by decide) (by decide), h6 (by decide)⟩

/-- Claim C7: on a store whose per-stat select sees at most one row per
slot (as on every store the engine itself builds), `merge_player_stats`
raises the unsupported-kind error exactly when some value in the mapping is
not of kind Integer, Float or String; when every value is of one of those
kinds the call raises nothing.  The failure is the result of the call
itself — propagated, not swallowed. -/
theorem merge_player_stats_unsupported_kind (db : Db) (player : String) (year : Int)
    (stats : List (String × PyVal))
    (hslots : ∀ s, (slotRows db player year s).length ≤ 1) :
    ((∃ x ∈ stats, ¬(type2str x.2).isOk = true) →
      (merge_player_stats db player year stats).2 = some "Unexpected type for statistic")
    ∧ ((∀ x ∈ stats, (type2str x.2).isOk = true) →
      (merge_player_stats db player year stats).2 = none) :=
  ⟨merge_player_stats_some_bad player year stats db hslots,
    merge_player_stats_all_ok player year stats db hslots⟩

/-- Witness for C7: a boolean value raises, a pure int/float/str mapping
does not. -/
theorem merge_player_stats_unsupported_kind_witness :
    (merge_player_stats emptyDb "PlayerA" 2021 [("flag", PyVal.bool true)]).2
        = some "Unexpected type for statistic"
    ∧ (merge_player_stats emptyDb "PlayerA" 2021
        [("gp", PyVal.int 3), ("nick", PyVal.str "Ace")]).2 = none := by
  have h1 := merge_player_stats_unsupported_kind emptyDb "PlayerA" 2021
    [("flag", PyVal.bool true)] (fun s => by simp [slotRows, emptyDb])
  have h2 := merge_player_stats_unsupported_kind emptyDb "PlayerA" 2021
    [("gp", PyVal.int 3), ("nick", PyVal.str "Ace")] (fun s => by simp [slotRows, emptyDb])
  exact ⟨h1.1 (by decide), h2.2 (by decide)⟩

/-- Claim C8: on `rankingExampleDb` (players A and B on 2021 playoff teams
with salaries 30,000,000 and 25,000,000), `fetch_player_salary_playoffs
2021 (limit 1)` returns exactly A's record; in general the result is
ordered by salary descending, a `some n` limit caps the length at `n`, and
with no limit the result is a permutation of (i.e. contains exactly) the
joined rows. -/
theorem fetch_top_salaries_ranking_and_limit (db : Db) (year : Int)
    (limit : Option Nat) (n : Nat) :
    fetch_player_salary_playoffs rankingExampleDb 2021 (some 1)
        = [⟨2021, "TeamA", "A", 30000000, "$"⟩]
    ∧ (fetch_player_salary_playoffs db year limit).Pairwise
        (fun a b => b.salary ≤ a.salary)
    ∧ (fetch_player_salary_playoffs db year (some n)).length ≤ n
    ∧ List.Perm (fetch_player_salary_playoffs db year none) (salaryJoinRows db year) :=
  ⟨by decide, fetch_salary_pairwise db year limit, fetch_salary_length db year n,
    fetch_salary_perm db year⟩

/-- Claim C9: in every store the engine can reach from the fresh database,
all `player_stats` rows carry season `postseason` (the engine hard-codes it
on insert and updates never touch it), so fetching the `regularseason`
yields the empty frame. -/
theorem reachable_stats_postseason_only (db : Db) (h : Reachable db) :
    (∀ r ∈ db.player_stats, r.season = "postseason")
    ∧ ∀ y : Int, fetch_player_stats db y "regularseason"
        = DataFrame.raw ["PLAYER", "STAT_NAME", "STAT_VALUE", "STAT_TYPE"] [] := by
  have hs := reachable_season db h
  refine ⟨hs, fun y => ?_⟩
  apply fetch_player_stats_of_no_rows
  rw [List.filter_eq_nil_iff]
  intro r hr
  have hr2 := hs r hr
  simp [hr2]

/-- Witness for C9: a store reached by one `merge_player_stats` call. -/
theorem reachable_stats_postseason_only_witness :
    fetch_player_stats
        (merge_player_stats emptyDb "PlayerA" 2021 [("gp", PyVal.int 1)]).1
        2000 "regularseason"
      = DataFrame.raw ["PLAYER", "STAT_NAME", "STAT_VALUE", "STAT_TYPE"] [] :=
  (reachable_stats_postseason_only _
    (Reachable.stats "PlayerA" 2021 [("gp", PyVal.int 1)] Reachable.empty)).2 2000

/-- Claim C10: a boolean stat value hits the error branch of `type2str`
(in Python, `type(True) == int` is false since `bool` is its own runtime
type), so the call raises the unsupported-kind error and stores nothing —
the value is not silently persisted as Integer. -/
theorem merge_player_stats_bool_value_raises :
    merge_player_stats emptyDb "PlayerA" 2021 [("flag", PyVal.bool true)]
        = (emptyDb, some "Unexpected type for statistic")
    ∧ merge_player_stats emptyDb "PlayerA" 2021 [("flag", PyVal.bool false)]
        = (emptyDb, some "Unexpected type for statistic")
    ∧ type2str (PyVal.bool true) = .error "Unexpected type for statistic"
    ∧ type2str (PyVal.bool false) = .error "Unexpected type for statistic" := by
  decide
